import Mathlib

/-!
Verification of the KiddoTime task-scheduling core: a shallow embedding of
the task store, history store, list reordering, schedule generation
fallback, progress computation and the countdown timer, translated from the
TypeScript source, together with theorems settling the specification's
claims about them.
-/

namespace KiddoTime

/-- `TaskStatus` from `types.ts`: PENDING | ACTIVE | COMPLETED | SKIPPED. -/
inductive TaskStatus where
  | PENDING
  | ACTIVE
  | COMPLETED
  | SKIPPED
deriving DecidableEq

/-- The `Task` record from `types.ts`.  `actualMinutes` is not declared in
the `Task` interface, but `App.tsx`'s `handleCompleteTask` writes such a
property onto the runtime object, so the embedding carries it as an extra
optional field (absent = the property was never written). -/
structure Task where
  id : String
  title : String
  subject : String
  estimatedMinutes : Nat
  status : TaskStatus
  isBreak : Bool
  emoji : String
  actualDurationSeconds : Option Nat
  actualMinutes : Option Nat
deriving DecidableEq

/-- Default task used as the out-of-range fallback of JS array indexing. -/
def defaultTask : Task :=
  { id := "", title := "", subject := "", estimatedMinutes := 0,
    status := TaskStatus.PENDING, isBreak := false, emoji := "",
    actualDurationSeconds := none, actualMinutes := none }

/-- The pending-partition predicate of `Schedule.tsx`:
`t.status === TaskStatus.PENDING || t.status === TaskStatus.ACTIVE`. -/
def isPendingStatus (t : Task) : Bool :=
  t.status == TaskStatus.PENDING || t.status == TaskStatus.ACTIVE

/-- The completed-partition predicate of `Schedule.tsx`:
`t.status === TaskStatus.COMPLETED`. -/
def isCompletedStatus (t : Task) : Bool :=
  t.status == TaskStatus.COMPLETED

/-- `Schedule.tsx`: `tasks.filter(t => t.status === PENDING || t.status === ACTIVE)`. -/
def pendingTasks (tasks : List Task) : List Task :=
  tasks.filter isPendingStatus

/-- `Schedule.tsx`: `tasks.filter(t => t.status === COMPLETED)`. -/
def completedTasks (tasks : List Task) : List Task :=
  tasks.filter isCompletedStatus

/-- JavaScript `a || b` on an optional number: `undefined` and `0` are
falsy, any other number is returned unchanged. -/
def jsOrNat (a : Option Nat) (b : Nat) : Nat :=
  match a with
  | some s => if s = 0 then b else s
  | none => b

/-- `Schedule.tsx` `calculateTaskMinutes`: for a COMPLETED task
`(t.actualDurationSeconds || t.estimatedMinutes * 60) / 60`, otherwise the
estimate. -/
def calculateTaskMinutes (t : Task) : ℚ :=
  if t.status = TaskStatus.COMPLETED then
    (jsOrNat t.actualDurationSeconds (t.estimatedMinutes * 60) : ℚ) / 60
  else
    (t.estimatedMinutes : ℚ)

/-- `Schedule.tsx`: `tasks.reduce((acc, t) => acc + calculateTaskMinutes(t), 0)`. -/
def totalMinutes (tasks : List Task) : ℚ :=
  (tasks.map calculateTaskMinutes).sum

/-- `Schedule.tsx`: the completed-minutes accumulator
`completedTasks.reduce((acc, t) => acc + (t.actualDurationSeconds || t.estimatedMinutes * 60) / 60, 0)`. -/
def completedMinutes (tasks : List Task) : ℚ :=
  ((completedTasks tasks).map
    (fun t => (jsOrNat t.actualDurationSeconds (t.estimatedMinutes * 60) : ℚ) / 60)).sum

/-- `Schedule.tsx`:
`tasks.length > 0 ? (completedMinutes / totalMinutes) * 100 : 0`. -/
def progressPercent (tasks : List Task) : ℚ :=
  if tasks.length > 0 then completedMinutes tasks / totalMinutes tasks * 100 else 0

/-- `Schedule.tsx` `moveTask`: swap the pending item at `index` with its
neighbour (`up` = previous, otherwise next) and emit the new pending order
followed by the completed partition; a target index out of range is a
no-op.  The JS number arithmetic is carried out in `Int` so that
`index - 1` at `index = 0` is `-1` as in the source. -/
def moveTask (up : Bool) (index : Nat) (tasks : List Task) : List Task :=
  let pending := pendingTasks tasks
  let completed := completedTasks tasks
  let target : Int := if up then (index : Int) - 1 else (index : Int) + 1
  if target < 0 ∨ (pending.length : Int) ≤ target then
    tasks
  else
    ((pending.set index (pending.getD target.toNat defaultTask)).set target.toNat
      (pending.getD index defaultTask)) ++ completed

/-- `Schedule.tsx` `handleDragOver`: if a drag is in progress and the
pointer is over a different pending index, splice the dragged item out and
reinsert it at the hovered index, emitting the new drag index and the new
task list (pending order followed by the completed partition). -/
def handleDragOver (draggedItemIndex : Option Nat) (index : Nat) (tasks : List Task) :
    Option Nat × List Task :=
  match draggedItemIndex with
  | none => (none, tasks)
  | some d =>
    if d = index then (some d, tasks)
    else
      let pending := pendingTasks tasks
      let completed := completedTasks tasks
      let draggedItem := pending.getD d defaultTask
      let newPending := (pending.eraseIdx d).insertIdx index draggedItem
      (some index, newPending ++ completed)

/-- The simplified task descriptor sent to the Scheduler Gateway
(`App.tsx`: `tasks.map(({title, subject, estimatedMinutes, emoji}) => ...)`). -/
structure TaskDescriptor where
  title : String
  subject : String
  estimatedMinutes : Nat
  emoji : String
deriving DecidableEq

/-- One item of the Gateway's response schema (`services/gemini.ts`):
title, subject, estimatedMinutes, isBreak and emoji are required. -/
structure ScheduleItem where
  title : String
  subject : String
  estimatedMinutes : Nat
  isBreak : Bool
  emoji : String
deriving DecidableEq

/-- The default placeholder emoji used by the Gateway fallback path in
`services/gemini.ts`. -/
def fallbackEmoji : String := "📝"

/-- `services/gemini.ts` fallback mapping:
`tasks.map(t => ({...t, isBreak: false, emoji: '📝'}))`. -/
def fallbackScheduleItem (t : TaskDescriptor) : ScheduleItem :=
  { title := t.title, subject := t.subject, estimatedMinutes := t.estimatedMinutes,
    isBreak := false, emoji := fallbackEmoji }

/-- Observable outcome of the Gateway call in `services/gemini.ts`:
either the `await` throws (transport failure) or it resolves with an
optional `response.text`. -/
inductive GatewayOutcome where
  | failure
  | ok (text : Option String)

/-- `services/gemini.ts` `generateOptimizedSchedule`, parameterised by the
JSON parser (`JSON.parse` returning the typed item list, or `none` when it
throws): a thrown transport or parse error is caught and mapped to the
deterministic fallback; a missing or empty (`!text`) response text returns
the empty list before parsing. -/
def generateOptimizedSchedule (parse : String → Option (List ScheduleItem))
    (tasks : List TaskDescriptor) (outcome : GatewayOutcome) : List ScheduleItem :=
  match outcome with
  | GatewayOutcome.failure => tasks.map fallbackScheduleItem
  | GatewayOutcome.ok text =>
    match text with
    | none => []
    | some s =>
      if s = "" then []
      else
        match parse s with
        | some items => items
        | none => tasks.map fallbackScheduleItem

/-- The app-level state relevant to the claims: the active day key, the
materialized task list for that day, and the history mapping
(`Record<string, Task[]>` modelled as a function to an optional list). -/
structure AppModel where
  currentDate : String
  tasks : List Task
  history : String → Option (List Task)

/-- `App.tsx` `updateTasks`: compute the new task list from the previous
one, store it as the in-memory list, and write it into the history record
under the active day's key (`{...prevHistory, [dateKey]: updatedTasks}`). -/
def updateTasks (newTasks : List Task → List Task) (st : AppModel) : AppModel :=
  let updatedTasks := newTasks st.tasks
  { st with
    tasks := updatedTasks,
    history := fun k => if k = st.currentDate then some updatedTasks else st.history k }

/-- `handleCompleteTask` as written in `src/unnamed/part_000` (the variant
that writes `actualDurationSeconds`): map over the list, replacing the task
whose id matches with a COMPLETED copy carrying the reported duration. -/
def handleCompleteTask (taskId : String) (durationSeconds : Nat)
    (tasks : List Task) : List Task :=
  tasks.map (fun t =>
    if t.id == taskId then
      { t with status := TaskStatus.COMPLETED, actualDurationSeconds := some durationSeconds }
    else t)

/-- `handleCompleteTask` as written in `src/App.tsx`: identical except that
the reported duration is written to a property named `actualMinutes`
(`{...t, status: COMPLETED, actualMinutes: duration}`), a property the
`Task` interface of `types.ts` does not declare; `actualDurationSeconds`
is left untouched. -/
def handleCompleteTaskApp (taskId : String) (duration : Nat)
    (tasks : List Task) : List Task :=
  tasks.map (fun t =>
    if t.id == taskId then
      { t with status := TaskStatus.COMPLETED, actualMinutes := some duration }
    else t)

/-- `App.tsx` `handleDeleteTask`: `prev.filter(t => t.id !== taskId)`. -/
def handleDeleteTask (taskId : String) (tasks : List Task) : List Task :=
  tasks.filter (fun t => !(t.id == taskId))

/-- `App.tsx` `handleCreateSchedule` body after `await`: build the
descriptor list, call the Gateway, rebuild full `Task` records with fresh
ids (`task-<now>-<idx>`), default `isBreak` to `false` and the emoji to the
calendar glyph when falsy, every status PENDING, then route the wholesale
replacement through `updateTasks`. -/
def handleCreateSchedule (parse : String → Option (List ScheduleItem))
    (outcome : GatewayOutcome) (now : Nat) (st : AppModel) : AppModel :=
  let simpleTasks := st.tasks.map (fun t =>
    { title := t.title, subject := t.subject,
      estimatedMinutes := t.estimatedMinutes, emoji := t.emoji : TaskDescriptor })
  let optimized := generateOptimizedSchedule parse simpleTasks outcome
  let newTasks := (optimized.enum).map (fun p =>
    { id := "task-" ++ toString now ++ "-" ++ toString p.1,
      title := p.2.title, subject := p.2.subject,
      estimatedMinutes := p.2.estimatedMinutes,
      isBreak := p.2.isBreak,
      emoji := if p.2.emoji = "" then "📅" else p.2.emoji,
      status := TaskStatus.PENDING,
      actualDurationSeconds := none, actualMinutes := none : Task })
  updateTasks (fun _ => newTasks) st

/-- The `Timer.tsx` component state: `timeLeft` (may go negative),
`isActive`, and `totalTimeSpent`. -/
structure TimerState where
  timeLeft : Int
  isActive : Bool
  totalTimeSpent : Nat
deriving DecidableEq

/-- Initial timer state for a task: `timeLeft = estimatedMinutes * 60`,
inactive, `totalTimeSpent = 0`. -/
def initTimer (estimatedMinutes : Nat) : TimerState :=
  { timeLeft := (estimatedMinutes : Int) * 60, isActive := false, totalTimeSpent := 0 }

/-- Events a `Timer.tsx` instance processes: the pause/resume button
(`handleToggle`) and a one-second interval callback.  The interval only
exists while `isActive` (the effect clears it otherwise), so a tick
arriving in an inactive state changes nothing. -/
inductive TimerEvent where
  | toggle
  | tick
deriving DecidableEq

/-- One step of the `Timer.tsx` state machine: `handleToggle` flips
`isActive`; an interval tick decrements `timeLeft` and increments
`totalTimeSpent`, and fires only while active. -/
def timerStep (s : TimerState) (e : TimerEvent) : TimerState :=
  match e with
  | TimerEvent.toggle => { s with isActive := !s.isActive }
  | TimerEvent.tick =>
    if s.isActive then
      { s with timeLeft := s.timeLeft - 1, totalTimeSpent := s.totalTimeSpent + 1 }
    else s

/-- Run a timer from a state through a sequence of events. -/
def runTimer (s : TimerState) (evs : List TimerEvent) : TimerState :=
  evs.foldl timerStep s

/-- `Timer.tsx` `handleFinish`: deactivate and report `totalTimeSpent`
seconds to the caller (`onComplete(task, totalTimeSpent)`). -/
def handleFinish (s : TimerState) : TimerState × Nat :=
  ({ s with isActive := false }, s.totalTimeSpent)

/-- The number of tick callbacks of an event sequence that arrive while the
timer is RUNNING (`isActive`), i.e. the `N` of the specification. -/
def ticksWhileRunning (s : TimerState) : List TimerEvent → Nat
  | [] => 0
  | e :: rest =>
    (match e with
     | TimerEvent.tick => if s.isActive then 1 else 0
     | TimerEvent.toggle => 0) + ticksWhileRunning (timerStep s e) rest

/-- Effective minutes of a task exactly as the claim words it: for a
COMPLETED task `actualDurationSeconds/60` whenever that field is present,
else the estimate; for a non-completed task always the estimate. -/
def claimEffectiveMinutes (t : Task) : ℚ :=
  if t.status = TaskStatus.COMPLETED then
    match t.actualDurationSeconds with
    | some s => (s : ℚ) / 60
    | none => (t.estimatedMinutes : ℚ)
  else (t.estimatedMinutes : ℚ)

/-- The progress ratio exactly as the claim words it, from
`claimEffectiveMinutes`; 0 for the empty list. -/
def claimProgress (tasks : List Task) : ℚ :=
  if tasks = [] then 0
  else
    ((tasks.filter (fun t => t.status == TaskStatus.COMPLETED)).map claimEffectiveMinutes).sum
      / (tasks.map claimEffectiveMinutes).sum * 100

/-- Effective minutes per the amended claim: for a COMPLETED task,
`actualDurationSeconds/60` when the field is present *and positive* (the
source treats a recorded `0` as falsy and falls back to the estimate),
else the estimate; for a non-completed task always the estimate. -/
def specEffectiveMinutes (t : Task) : ℚ :=
  if t.status = TaskStatus.COMPLETED then
    match t.actualDurationSeconds with
    | some s => if 0 < s then (s : ℚ) / 60 else (t.estimatedMinutes : ℚ)
    | none => (t.estimatedMinutes : ℚ)
  else (t.estimatedMinutes : ℚ)

/-- The progress ratio per the amended claim, from `specEffectiveMinutes`;
0 for the empty list. -/
def specProgress (tasks : List Task) : ℚ :=
  if tasks = [] then 0
  else
    ((tasks.filter (fun t => t.status == TaskStatus.COMPLETED)).map specEffectiveMinutes).sum
      / (tasks.map specEffectiveMinutes).sum * 100

/-- A concrete pending task used by witnesses. -/
def exPendingA : Task :=
  { id := "a", title := "Math worksheet", subject := "Math", estimatedMinutes := 30,
    status := TaskStatus.PENDING, isBreak := false, emoji := "📐",
    actualDurationSeconds := none, actualMinutes := none }

/-- A second concrete pending task used by witnesses. -/
def exPendingB : Task :=
  { id := "b", title := "Reading", subject := "English", estimatedMinutes := 20,
    status := TaskStatus.PENDING, isBreak := false, emoji := "📖",
    actualDurationSeconds := none, actualMinutes := none }

/-- A concrete ACTIVE task used by witnesses. -/
def exActiveC : Task :=
  { id := "c", title := "Essay", subject := "Chinese", estimatedMinutes := 25,
    status := TaskStatus.ACTIVE, isBreak := false, emoji := "✍",
    actualDurationSeconds := none, actualMinutes := none }

/-- A concrete completed task (with a recorded duration) used by witnesses
and counterexamples. -/
def exCompletedD : Task :=
  { id := "d", title := "Spelling", subject := "English", estimatedMinutes := 10,
    status := TaskStatus.COMPLETED, isBreak := false, emoji := "🔤",
    actualDurationSeconds := some 600, actualMinutes := none }

/-- A concrete SKIPPED task used by the partitioning counterexample. -/
def exSkippedE : Task :=
  { id := "e", title := "Piano", subject := "Music", estimatedMinutes := 15,
    status := TaskStatus.SKIPPED, isBreak := false, emoji := "🎹",
    actualDurationSeconds := none, actualMinutes := none }

/-- A completed task whose recorded actual duration is zero seconds (the
timer was finished before any tick), used by the progress counterexample. -/
def exCompletedZero : Task :=
  { id := "z", title := "Quick check", subject := "Math", estimatedMinutes := 30,
    status := TaskStatus.COMPLETED, isBreak := false, emoji := "✅",
    actualDurationSeconds := some 0, actualMinutes := none }

/-- The four-task sample list used by witnesses: two pending, one active,
one completed. -/
def exTasks : List Task := [exPendingA, exPendingB, exActiveC, exCompletedD]

/-- A concrete app state used by witnesses, with one day of history. -/
def exModel : AppModel :=
  { currentDate := "2024-03-07",
    tasks := exTasks,
    history := fun k => if k = "2024-03-07" then some exTasks else none }

/-- A concrete descriptor list used by Gateway witnesses. -/
def exDescriptors : List TaskDescriptor :=
  [ { title := "Math worksheet", subject := "Math", estimatedMinutes := 30, emoji := "📐" },
    { title := "Reading", subject := "English", estimatedMinutes := 20, emoji := "📖" } ]

/-! Helper lemmas -/

theorem getD_mem {α : Type} {l : List α} {i : Nat} (d : α) (h : i < l.length) :
    l.getD i d ∈ l := by
  rw [List.getD_eq_getElem l d h]
  exact List.getElem_mem h

theorem consErasePerm {α : Type} : ∀ (i : Nat) (l : List α) (d : α), i < l.length →
    (l.getD i d :: l.eraseIdx i).Perm l
  | 0, a :: t, d, _ => by simp [List.eraseIdx]
  | (i+1), a :: t, d, h => by
    have ih := consErasePerm i t d (by simpa using h)
    simp only [List.getD_cons_succ, List.eraseIdx_cons_succ]
    exact (List.Perm.swap a (t.getD i d) _).trans (ih.cons a)

theorem insertIdxPerm {α : Type} : ∀ (j : Nat) (m : List α) (a : α), j ≤ m.length →
    (m.insertIdx j a).Perm (a :: m)
  | 0, m, a, _ => by simp [List.insertIdx_zero]
  | (j+1), [], a, h => by simp at h
  | (j+1), b :: t, a, h => by
    have ih := insertIdxPerm j t a (by simpa using h)
    rw [List.insertIdx_succ_cons]
    exact (ih.cons b).trans (List.Perm.swap a b t)

theorem setSwapPerm {α : Type} : ∀ (i : Nat) (l : List α) (d : α), i + 1 < l.length →
    ((l.set i (l.getD (i+1) d)).set (i+1) (l.getD i d)).Perm l
  | 0, a :: b :: t, d, _ => by
    simp [List.set_cons_zero, List.set_cons_succ, List.getD_cons_succ, List.getD_cons_zero]
    exact List.Perm.swap a b t
  | (i+1), a :: t, d, h => by
    have ih := setSwapPerm i t d (by simpa using h)
    simp only [List.set_cons_succ, List.getD_cons_succ]
    exact ih.cons a

theorem eraseInsertDown {α : Type} : ∀ (i : Nat) (l : List α) (d : α), i + 1 < l.length →
    (l.eraseIdx i).insertIdx (i+1) (l.getD i d)
      = (l.set i (l.getD (i+1) d)).set (i+1) (l.getD i d)
  | 0, a :: b :: t, d, _ => by
    simp [List.eraseIdx, List.insertIdx_succ_cons, List.insertIdx_zero,
      List.set_cons_zero, List.set_cons_succ, List.getD_cons_succ, List.getD_cons_zero]
  | (i+1), a :: t, d, h => by
    have ih := eraseInsertDown i t d (by simpa using h)
    simp only [List.eraseIdx_cons_succ, List.getD_cons_succ, List.insertIdx_succ_cons,
      List.set_cons_succ]
    rw [ih]

theorem eraseInsertUp {α : Type} : ∀ (k : Nat) (l : List α) (d : α), k + 1 < l.length →
    (l.eraseIdx (k+1)).insertIdx k (l.getD (k+1) d)
      = (l.set (k+1) (l.getD k d)).set k (l.getD (k+1) d)
  | 0, a :: b :: t, d, _ => by
    simp [List.eraseIdx_cons_succ, List.eraseIdx, List.insertIdx_zero,
      List.set_cons_zero, List.set_cons_succ, List.getD_cons_succ, List.getD_cons_zero]
  | (k+1), a :: t, d, h => by
    have ih := eraseInsertUp k t d (by simpa using h)
    simp only [List.eraseIdx_cons_succ, List.getD_cons_succ, List.insertIdx_succ_cons,
      List.set_cons_succ]
    rw [ih]

theorem isCompleted_of_isPending_false {t : Task} (h : isPendingStatus t = true) :
    isCompletedStatus t = false := by
  cases hs : t.status <;> simp [isPendingStatus, isCompletedStatus, hs] at h ⊢

theorem isPending_of_isCompleted_false {t : Task} (h : isCompletedStatus t = true) :
    isPendingStatus t = false := by
  cases hs : t.status <;> simp [isPendingStatus, isCompletedStatus, hs] at h ⊢

theorem pendingTasks_mix (newPending : List Task) (tasks : List Task)
    (h : ∀ t ∈ newPending, isPendingStatus t = true) :
    pendingTasks (newPending ++ completedTasks tasks) = newPending := by
  rw [pendingTasks, List.filter_append]
  have h1 : newPending.filter isPendingStatus = newPending := List.filter_eq_self.mpr h
  have h2 : (completedTasks tasks).filter isPendingStatus = [] :=
    List.filter_eq_nil_iff.mpr (fun t ht => by
      simp [isPending_of_isCompleted_false (List.of_mem_filter ht)])
  rw [h1, h2, List.append_nil]

theorem completedTasks_mix (newPending : List Task) (tasks : List Task)
    (h : ∀ t ∈ newPending, isPendingStatus t = true) :
    completedTasks (newPending ++ completedTasks tasks) = completedTasks tasks := by
  rw [completedTasks, List.filter_append]
  have h1 : newPending.filter isCompletedStatus = [] :=
    List.filter_eq_nil_iff.mpr (fun t ht => by
      simp [isCompleted_of_isPending_false (h t ht)])
  have h2 : (completedTasks tasks).filter isCompletedStatus = completedTasks tasks :=
    List.filter_eq_self.mpr (fun t ht => List.of_mem_filter ht)
  rw [h1, h2, List.nil_append]

theorem mem_pendingTasks_pred {tasks : List Task} {t : Task}
    (h : t ∈ pendingTasks tasks) : isPendingStatus t = true :=
  List.of_mem_filter h

theorem pendCompPerm (tasks : List Task) :
    (pendingTasks tasks ++ completedTasks tasks).Perm
      (tasks.filter (fun t => !(t.status == TaskStatus.SKIPPED))) := by
  induction tasks with
  | nil => simp [pendingTasks, completedTasks]
  | cons t ts ih =>
    cases hs : t.status
    case PENDING =>
      simpa [pendingTasks, completedTasks, List.filter_cons, isPendingStatus,
        isCompletedStatus, hs] using ih.cons t
    case ACTIVE =>
      simpa [pendingTasks, completedTasks, List.filter_cons, isPendingStatus,
        isCompletedStatus, hs] using ih.cons t
    case COMPLETED =>
      simp only [pendingTasks, completedTasks, List.filter_cons, isPendingStatus,
        isCompletedStatus, hs]
      simpa using List.perm_middle.trans (ih.cons t)
    case SKIPPED =>
      simpa [pendingTasks, completedTasks, List.filter_cons, isPendingStatus,
        isCompletedStatus, hs] using ih

theorem runTimer_spent (evs : List TimerEvent) : ∀ (s : TimerState),
    (runTimer s evs).totalTimeSpent = s.totalTimeSpent + ticksWhileRunning s evs := by
  induction evs with
  | nil => intro s; simp [runTimer, ticksWhileRunning]
  | cons e rest ih =>
    intro s
    have : runTimer s (e :: rest) = runTimer (timerStep s e) rest := rfl
    rw [this, ih]
    cases e with
    | toggle => simp [timerStep, ticksWhileRunning]
    | tick =>
      by_cases h : s.isActive = true
      · simp [timerStep, ticksWhileRunning, h]
        omega
      · simp [timerStep, ticksWhileRunning, h]

theorem calc_eq_specEffective (t : Task) :
    calculateTaskMinutes t = specEffectiveMinutes t := by
  unfold calculateTaskMinutes specEffectiveMinutes jsOrNat
  by_cases h : t.status = TaskStatus.COMPLETED
  · simp only [h, if_true]
    cases ha : t.actualDurationSeconds with
    | none =>
      push_cast
      field_simp
    | some s =>
      rcases Nat.eq_zero_or_pos s with hz | hp
      · subst hz
        simp
      · simp [Nat.pos_iff_ne_zero.mp hp, hp]
  · simp [h]

theorem completedMinutes_eq_spec (tasks : List Task) :
    completedMinutes tasks
      = ((tasks.filter (fun t => t.status == TaskStatus.COMPLETED)).map
          specEffectiveMinutes).sum := by
  unfold completedMinutes completedTasks
  congr 1
  apply List.map_congr_left
  intro t ht
  have hc : isCompletedStatus t = true := List.of_mem_filter ht
  have hs : t.status = TaskStatus.COMPLETED := by
    simpa [isCompletedStatus] using hc
  unfold specEffectiveMinutes jsOrNat
  simp only [hs, if_true]
  cases ha : t.actualDurationSeconds with
  | none =>
    push_cast
    field_simp
  | some s =>
    rcases Nat.eq_zero_or_pos s with hz | hp
    · subst hz
      simp
    · simp [Nat.pos_iff_ne_zero.mp hp, hp]

theorem totalMinutes_eq_spec (tasks : List Task) :
    totalMinutes tasks = (tasks.map specEffectiveMinutes).sum := by
  unfold totalMinutes
  congr 1
  apply List.map_congr_left
  intro t _
  exact calc_eq_specEffective t

theorem moveTask_up_eq (tasks : List Task) (index : Nat) (h1 : 1 ≤ index)
    (h2 : index < (pendingTasks tasks).length) :
    moveTask true index tasks
      = ((pendingTasks tasks).set index
            ((pendingTasks tasks).getD (index - 1) defaultTask)).set (index - 1)
            ((pendingTasks tasks).getD index defaultTask)
          ++ completedTasks tasks := by
  unfold moveTask
  have hguard : ¬ (((index : Int) - 1) < 0 ∨
      ((pendingTasks tasks).length : Int) ≤ (index : Int) - 1) := by
    push_neg
    constructor <;> omega
  have htoNat : ((index : Int) - 1).toNat = index - 1 := by omega
  simp only [if_true, htoNat]
  rw [if_neg]
  exact hguard

theorem moveTask_down_eq (tasks : List Task) (index : Nat)
    (h2 : index + 1 < (pendingTasks tasks).length) :
    moveTask false index tasks
      = ((pendingTasks tasks).set index
            ((pendingTasks tasks).getD (index + 1) defaultTask)).set (index + 1)
            ((pendingTasks tasks).getD index defaultTask)
          ++ completedTasks tasks := by
  unfold moveTask
  have hguard : ¬ (((index : Int) + 1) < 0 ∨
      ((pendingTasks tasks).length : Int) ≤ (index : Int) + 1) := by
    push_neg
    constructor <;> omega
  have htoNat : ((index : Int) + 1).toNat = index + 1 := by omega
  simp only [Bool.false_eq_true, if_false, htoNat]
  rw [if_neg]
  exact hguard

theorem moveTask_up_zero (tasks : List Task) : moveTask true 0 tasks = tasks := by
  unfold moveTask
  rw [if_pos]
  left
  norm_num

theorem moveTask_down_oob (tasks : List Task) (index : Nat)
    (h : (pendingTasks tasks).length ≤ index + 1) :
    moveTask false index tasks = tasks := by
  unfold moveTask
  simp only [Bool.false_eq_true, if_false]
  rw [if_pos]
  right
  omega

theorem handleDragOver_eq (tasks : List Task) (d index : Nat) (hne : d ≠ index) :
    handleDragOver (some d) index tasks
      = (some index,
          (((pendingTasks tasks).eraseIdx d).insertIdx index
              ((pendingTasks tasks).getD d defaultTask))
            ++ completedTasks tasks) := by
  simp [handleDragOver, hne]

theorem swapped_all_pending (tasks : List Task) (i j : Nat)
    (hi : i < (pendingTasks tasks).length) (hj : j < (pendingTasks tasks).length) :
    ∀ t ∈ ((pendingTasks tasks).set i ((pendingTasks tasks).getD j defaultTask)).set j
        ((pendingTasks tasks).getD i defaultTask), isPendingStatus t = true := by
  intro t ht
  rcases List.mem_or_eq_of_mem_set ht with h | h
  · rcases List.mem_or_eq_of_mem_set h with h2 | h2
    · exact mem_pendingTasks_pred h2
    · subst h2
      exact mem_pendingTasks_pred (getD_mem _ hj)
  · subst h
    exact mem_pendingTasks_pred (getD_mem _ hi)

theorem dragged_all_pending (tasks : List Task) (d index : Nat)
    (hd : d < (pendingTasks tasks).length)
    (hidx : index ≤ ((pendingTasks tasks).eraseIdx d).length) :
    ∀ t ∈ ((pendingTasks tasks).eraseIdx d).insertIdx index
        ((pendingTasks tasks).getD d defaultTask), isPendingStatus t = true := by
  intro t ht
  rcases (List.mem_insertIdx hidx).mp ht with h | h
  · subst h
    exact mem_pendingTasks_pred (getD_mem _ hd)
  · exact mem_pendingTasks_pred (List.eraseIdx_subset _ _ h)

/-! Claim theorems -/

/-- C1 (code bug, evaluation at the failing input): completing the pending
task `"a"` with a reported elapsed duration of 45 seconds.  The
`handleCompleteTask` of `src/App.tsx` marks the task COMPLETED but writes
the duration to a property `actualMinutes` that the `Task` interface of
`types.ts` does not declare, leaving `actualDurationSeconds` (the field
the spec and `Schedule.tsx`'s display read) unset — so the claimed
postcondition `actualDurationSeconds = 45` fails on it; the variant in
`src/unnamed/part_000` records `actualDurationSeconds = 45` as claimed. -/
theorem c1_app_completion_eval :
    (handleCompleteTaskApp "a" 45 [exPendingA]).map Task.status
        = [TaskStatus.COMPLETED]
      ∧ (handleCompleteTaskApp "a" 45 [exPendingA]).map Task.actualDurationSeconds
        = [none]
      ∧ (handleCompleteTaskApp "a" 45 [exPendingA]).map Task.actualMinutes
        = [some 45]
      ∧ (handleCompleteTask "a" 45 [exPendingA]).map Task.actualDurationSeconds
        = [some 45] := by
  decide

/-- C3: when the Scheduler Gateway call fails — the transport throws, or a
nonempty response text fails to parse — `generateOptimizedSchedule`
returns exactly the input descriptors mapped 1:1 in their original order,
each with `isBreak = false` and the default placeholder emoji: the user's
input is never lost. -/
theorem c3_fallback_preserves_input (parse : String → Option (List ScheduleItem))
    (tasks : List TaskDescriptor) (outcome : GatewayOutcome)
    (hfail : outcome = GatewayOutcome.failure ∨
      ∃ s, outcome = GatewayOutcome.ok (some s) ∧ s ≠ "" ∧ parse s = none) :
    generateOptimizedSchedule parse tasks outcome = tasks.map fallbackScheduleItem
      ∧ (generateOptimizedSchedule parse tasks outcome).length = tasks.length
      ∧ (generateOptimizedSchedule parse tasks outcome).map ScheduleItem.title
          = tasks.map TaskDescriptor.title
      ∧ ∀ item ∈ generateOptimizedSchedule parse tasks outcome,
          item.isBreak = false ∧ item.emoji = fallbackEmoji := by
  have hres : generateOptimizedSchedule parse tasks outcome
      = tasks.map fallbackScheduleItem := by
    rcases hfail with h | ⟨s, h, hs, hp⟩
    · subst h
      rfl
    · subst h
      simp [generateOptimizedSchedule, hs, hp]
  refine ⟨hres, ?_, ?_, ?_⟩
  · rw [hres, List.length_map]
  · rw [hres, List.map_map]
    rfl
  · rw [hres]
    intro item hitem
    rcases List.mem_map.mp hitem with ⟨t, _, rfl⟩
    exact ⟨rfl, rfl⟩

/-- C3 witness: the fallback at a concrete two-descriptor list and a
transport failure. -/
theorem c3_fallback_witness :
    (GatewayOutcome.failure = GatewayOutcome.failure ∨
      ∃ s, GatewayOutcome.failure = GatewayOutcome.ok (some s) ∧ s ≠ ""
        ∧ (fun (_ : String) => (none : Option (List ScheduleItem))) s = none)
    ∧ (generateOptimizedSchedule (fun _ => none) exDescriptors GatewayOutcome.failure).length
        = exDescriptors.length :=
  ⟨Or.inl rfl,
    (c3_fallback_preserves_input (fun _ => none) exDescriptors GatewayOutcome.failure
      (Or.inl rfl)).2.1⟩

/-- C4 counterexample: completing the already-COMPLETED task `"d"` (whose
recorded duration is 600 s) again with duration 99 is not a silent no-op
as claimed: the list changes and the previously recorded
`actualDurationSeconds` is overwritten with 99. -/
theorem c4_counterexample :
    handleCompleteTask "d" 99 [exCompletedD] ≠ [exCompletedD]
      ∧ (handleCompleteTask "d" 99 [exCompletedD]).map Task.actualDurationSeconds
        = [some 99] := by
  decide

/-- C4 amended: `handleCompleteTask(id, d)` is a silent no-op only when no
task in the list carries the id; whenever a task carries the id it is set
to COMPLETED with `actualDurationSeconds = d` regardless of its current
status — in particular an already-COMPLETED task's recorded duration is
overwritten — and tasks with other ids are unchanged. -/
theorem c4_mark_completed_amended (taskId : String) (d : Nat) (tasks : List Task) :
    ((∀ t ∈ tasks, t.id ≠ taskId) → handleCompleteTask taskId d tasks = tasks)
      ∧ (∀ t ∈ tasks, t.id = taskId →
          { t with status := TaskStatus.COMPLETED, actualDurationSeconds := some d }
            ∈ handleCompleteTask taskId d tasks)
      ∧ (∀ t ∈ tasks, t.id ≠ taskId → t ∈ handleCompleteTask taskId d tasks) := by
  refine ⟨?_, ?_, ?_⟩
  · intro h
    unfold handleCompleteTask
    have : tasks.map (fun t =>
        if t.id == taskId then
          { t with status := TaskStatus.COMPLETED, actualDurationSeconds := some d }
        else t) = tasks.map id :=
      List.map_congr_left (fun t ht => by simp [h t ht])
    simpa using this
  · intro t ht hid
    exact List.mem_map.mpr ⟨t, ht, by simp [hid]⟩
  · intro t ht hid
    exact List.mem_map.mpr ⟨t, ht, by simp [hid]⟩

/-- C4 witness: the amended no-op case evaluated at an absent id on the
four-task sample list. -/
theorem c4_mark_completed_witness :
    (∀ t ∈ exTasks, t.id ≠ "zz")
      ∧ handleCompleteTask "zz" 5 exTasks = exTasks :=
  ⟨by decide, (c4_mark_completed_amended "zz" 5 exTasks).1 (by decide)⟩

/-- C7: a task mutation performed through the single update entry point
`updateTasks` while day `D1` is active rewrites only the history entry of
`D1`; the stored sequence under every other day key `D2 ≠ D1` is
unchanged. -/
theorem c7_history_isolation (st : AppModel) (newTasks : List Task → List Task)
    (d2 : String) (h : d2 ≠ st.currentDate) :
    (updateTasks newTasks st).history d2 = st.history d2 := by
  unfold updateTasks
  simp [h]

/-- C7 witness: mutating the sample state (active day 2024-03-07) leaves
the entry of 2024-03-08 unchanged. -/
theorem c7_history_isolation_witness :
    ("2024-03-08" : String) ≠ exModel.currentDate
      ∧ (updateTasks (fun _ => []) exModel).history "2024-03-08"
        = exModel.history "2024-03-08" :=
  ⟨by decide, c7_history_isolation exModel (fun _ => []) "2024-03-08" (by decide)⟩

/-- C8: for every interleaving of pause/resume toggles and tick callbacks,
a timer started from a task's estimate and then finished reports exactly
the number of one-second ticks that arrived while it was RUNNING; each
tick increments the elapsed counter by one exactly when the timer is
active (it is frozen otherwise), and the finish report is the elapsed
count itself, independent of the estimate or of how many toggles
(pauses of arbitrary length) occurred. -/
theorem c8_timer_elapsed (est : Nat) (evs : List TimerEvent) :
    (handleFinish (runTimer (initTimer est) evs)).2
        = ticksWhileRunning (initTimer est) evs
      ∧ (∀ s : TimerState, (timerStep s TimerEvent.tick).totalTimeSpent
          = if s.isActive then s.totalTimeSpent + 1 else s.totalTimeSpent)
      ∧ (∀ s : TimerState, (handleFinish s).2 = s.totalTimeSpent) := by
  refine ⟨?_, ?_, fun s => rfl⟩
  · have h := runTimer_spent evs (initTimer est)
    simp only [handleFinish]
    rw [h]
    simp [initTimer]
  · intro s
    by_cases h : s.isActive <;> simp [timerStep, h]

/-- C2 counterexample: a task with the declared status SKIPPED is placed in
neither the pending nor the completed partition, so the partitioning does
not cover all four declared statuses and the concatenation of the
partitions loses the SKIPPED id. -/
theorem c2_counterexample :
    exSkippedE ∉ pendingTasks [exSkippedE]
      ∧ exSkippedE ∉ completedTasks [exSkippedE]
      ∧ (pendingTasks [exSkippedE] ++ completedTasks [exSkippedE]).map Task.id
          ≠ [exSkippedE].map Task.id := by
  decide

/-- C2 amended: for every task sequence, every task whose status is
PENDING, ACTIVE or COMPLETED appears in exactly one of the two partitions
according to its status (and never in both), a SKIPPED task appears in
neither, and the concatenation pending-then-completed has the same
multiset of ids as the subsequence of non-SKIPPED input tasks. -/
theorem c2_partition_amended (tasks : List Task) :
    (∀ t ∈ tasks,
      (t ∈ pendingTasks tasks ↔
          (t.status = TaskStatus.PENDING ∨ t.status = TaskStatus.ACTIVE))
        ∧ (t ∈ completedTasks tasks ↔ t.status = TaskStatus.COMPLETED)
        ∧ ¬ (t ∈ pendingTasks tasks ∧ t ∈ completedTasks tasks))
      ∧ ((pendingTasks tasks ++ completedTasks tasks).map Task.id).Perm
          ((tasks.filter (fun t => !(t.status == TaskStatus.SKIPPED))).map Task.id) := by
  constructor
  · intro t ht
    have hp : t ∈ pendingTasks tasks ↔ isPendingStatus t = true := by
      rw [pendingTasks, List.mem_filter]
      simp [ht]
    have hc : t ∈ completedTasks tasks ↔ isCompletedStatus t = true := by
      rw [completedTasks, List.mem_filter]
      simp [ht]
    refine ⟨?_, ?_, ?_⟩
    · rw [hp]
      cases hs : t.status <;> simp [isPendingStatus, hs]
    · rw [hc]
      cases hs : t.status <;> simp [isCompletedStatus, hs]
    · rintro ⟨h1, h2⟩
      rw [hp] at h1
      rw [hc] at h2
      cases hs : t.status <;> simp [isPendingStatus, isCompletedStatus, hs] at h1 h2
  · exact (pendCompPerm tasks).map Task.id

/-- C2 witness: membership of the completed sample task in the completed
partition of the four-task sample list. -/
theorem c2_partition_witness :
    exCompletedD ∈ exTasks ∧ exCompletedD ∈ completedTasks exTasks :=
  ⟨by decide,
    (((c2_partition_amended exTasks).1 exCompletedD (by decide)).2.1).mpr rfl⟩

/-- C6 counterexample: a completed task whose recorded actual duration is
0 seconds next to a pending 30-minute task.  The source treats the
recorded 0 as falsy and falls back to the estimate, computing 50%
progress, while the claimed formula (`actualDurationSeconds/60` whenever
the field is present) yields 0%. -/
theorem c6_counterexample :
    progressPercent [exCompletedZero, exPendingA] = 50
      ∧ claimProgress [exCompletedZero, exPendingA] = 0
      ∧ progressPercent [exCompletedZero, exPendingA]
          ≠ claimProgress [exCompletedZero, exPendingA] := by
  have h1 : progressPercent [exCompletedZero, exPendingA] = 50 := by
    have hfilter : completedTasks [exCompletedZero, exPendingA] = [exCompletedZero] := rfl
    unfold progressPercent completedMinutes totalMinutes
    rw [hfilter]
    norm_num [calculateTaskMinutes, jsOrNat, exCompletedZero, exPendingA]
  have h2 : claimProgress [exCompletedZero, exPendingA] = 0 := by
    have hfilter : List.filter (fun t => t.status == TaskStatus.COMPLETED)
        [exCompletedZero, exPendingA] = [exCompletedZero] := rfl
    unfold claimProgress
    rw [hfilter]
    norm_num [claimEffectiveMinutes, exCompletedZero, exPendingA]
  refine ⟨h1, h2, ?_⟩
  rw [h1, h2]
  norm_num

/-- C6 amended: the displayed progress percentage equals
(sum of effective minutes of completed tasks) / (sum of effective minutes
of all tasks) × 100, where a completed task's effective minutes is
`actualDurationSeconds/60` when that field is present *and positive* (a
recorded 0 is falsy in the source and falls back to the estimate) and its
estimate otherwise, and a non-completed task's effective minutes is always
its estimate; the progress of the empty task list is exactly 0. -/
theorem c6_progress_amended (tasks : List Task) :
    progressPercent tasks = specProgress tasks ∧ progressPercent [] = 0 := by
  constructor
  · unfold progressPercent specProgress
    by_cases h : tasks = []
    · subst h
      simp
    · have hlen : 0 < tasks.length := List.length_pos.mpr h
      rw [if_pos hlen, if_neg h, completedMinutes_eq_spec, totalMinutes_eq_spec]
  · simp [progressPercent]

/-- C10: when the Gateway call resolves without throwing but the response
text is missing or empty, `generateOptimizedSchedule` returns the empty
list — not the deterministic fallback, which for a nonempty input would be
nonempty — and `handleCreateSchedule` therefore replaces the active day's
task sequence, both in memory and in the history entry under the active
day key, with the empty sequence: the original tasks are discarded. -/
theorem c10_empty_response_clears (parse : String → Option (List ScheduleItem))
    (st : AppModel) (now : Nat) (text : Option String)
    (hempty : text = none ∨ text = some "") :
    generateOptimizedSchedule parse
        (st.tasks.map (fun t =>
          { title := t.title, subject := t.subject,
            estimatedMinutes := t.estimatedMinutes, emoji := t.emoji : TaskDescriptor }))
        (GatewayOutcome.ok text) = []
      ∧ (st.tasks ≠ [] →
          generateOptimizedSchedule parse
              (st.tasks.map (fun t =>
                { title := t.title, subject := t.subject,
                  estimatedMinutes := t.estimatedMinutes, emoji := t.emoji : TaskDescriptor }))
              (GatewayOutcome.ok text)
            ≠ (st.tasks.map (fun t =>
                { title := t.title, subject := t.subject,
                  estimatedMinutes := t.estimatedMinutes, emoji := t.emoji : TaskDescriptor })).map
                fallbackScheduleItem)
      ∧ (handleCreateSchedule parse (GatewayOutcome.ok text) now st).tasks = []
      ∧ (handleCreateSchedule parse (GatewayOutcome.ok text) now st).history
          st.currentDate = some [] := by
  have hgen : ∀ descriptors : List TaskDescriptor,
      generateOptimizedSchedule parse descriptors (GatewayOutcome.ok text) = [] := by
    intro descriptors
    rcases hempty with h | h <;> subst h <;> simp [generateOptimizedSchedule]
  refine ⟨hgen _, ?_, ?_, ?_⟩
  · intro hne
    rw [hgen]
    intro hcontra
    have : st.tasks.length = 0 := by
      have := congrArg List.length hcontra
      simpa using this.symm
    exact hne (List.length_eq_zero.mp this)
  · simp only [handleCreateSchedule]
    rw [hgen]
    simp [updateTasks]
  · simp only [handleCreateSchedule]
    rw [hgen]
    simp [updateTasks]

/-- C10 witness: the empty-text response applied to the sample state with
its four nonempty tasks clears the active day. -/
theorem c10_empty_response_witness :
    ((none : Option String) = none ∨ (none : Option String) = some "")
      ∧ (handleCreateSchedule (fun _ => none) (GatewayOutcome.ok none) 0 exModel).tasks
        = [] :=
  ⟨Or.inl rfl,
    (c10_empty_response_clears (fun _ => none) exModel 0 none (Or.inl rfl)).2.2.1⟩

/-- C5: every reorder step preserves the task set: an adjacent up/down
swap via `moveTask` leaves the pending ids a permutation of the original
pending ids with the completed partition (ids and order) untouched; an
out-of-range swap target — up from the first item or down from the last —
is a no-op on the whole task list rather than an error; and a drag
reinsertion via `handleDragOver` at any in-range drag/hover indices
likewise permutes the pending ids and leaves the completed partition
untouched, so no task is duplicated or dropped. -/
theorem c5_reorder_preserves (tasks : List Task) (index : Nat) :
    (1 ≤ index → index < (pendingTasks tasks).length →
      ((pendingTasks (moveTask true index tasks)).map Task.id).Perm
          ((pendingTasks tasks).map Task.id)
        ∧ completedTasks (moveTask true index tasks) = completedTasks tasks)
      ∧ (index + 1 < (pendingTasks tasks).length →
        ((pendingTasks (moveTask false index tasks)).map Task.id).Perm
            ((pendingTasks tasks).map Task.id)
          ∧ completedTasks (moveTask false index tasks) = completedTasks tasks)
      ∧ moveTask true 0 tasks = tasks
      ∧ ((pendingTasks tasks).length ≤ index + 1 → moveTask false index tasks = tasks)
      ∧ (∀ d, d < (pendingTasks tasks).length → index < (pendingTasks tasks).length →
        ((pendingTasks (handleDragOver (some d) index tasks).2).map Task.id).Perm
            ((pendingTasks tasks).map Task.id)
          ∧ completedTasks (handleDragOver (some d) index tasks).2
            = completedTasks tasks) := by
  refine ⟨?_, ?_, moveTask_up_zero tasks, moveTask_down_oob tasks index, ?_⟩
  · intro h1 h2
    rw [moveTask_up_eq tasks index h1 h2]
    have hallp : ∀ t ∈ ((pendingTasks tasks).set index
        ((pendingTasks tasks).getD (index - 1) defaultTask)).set (index - 1)
        ((pendingTasks tasks).getD index defaultTask), isPendingStatus t = true :=
      swapped_all_pending tasks index (index - 1) h2 (by omega)
    constructor
    · rw [pendingTasks_mix _ tasks hallp]
      have hk : (index - 1) + 1 = index := by omega
      have hcomm : ((pendingTasks tasks).set index
            ((pendingTasks tasks).getD (index - 1) defaultTask)).set (index - 1)
            ((pendingTasks tasks).getD index defaultTask)
          = ((pendingTasks tasks).set (index - 1)
            ((pendingTasks tasks).getD index defaultTask)).set index
            ((pendingTasks tasks).getD (index - 1) defaultTask) :=
        List.set_comm _ _ (pendingTasks tasks) (by omega)
      rw [hcomm]
      have hperm := setSwapPerm (index - 1) (pendingTasks tasks) defaultTask (by omega)
      rw [hk] at hperm
      exact hperm.map Task.id
    · exact completedTasks_mix _ tasks hallp
  · intro h2
    rw [moveTask_down_eq tasks index h2]
    have hallp : ∀ t ∈ ((pendingTasks tasks).set index
        ((pendingTasks tasks).getD (index + 1) defaultTask)).set (index + 1)
        ((pendingTasks tasks).getD index defaultTask), isPendingStatus t = true :=
      swapped_all_pending tasks index (index + 1) (by omega) h2
    constructor
    · rw [pendingTasks_mix _ tasks hallp]
      exact (setSwapPerm index (pendingTasks tasks) defaultTask h2).map Task.id
    · exact completedTasks_mix _ tasks hallp
  · intro d hd hidx
    by_cases hde : d = index
    · subst hde
      have hsame : handleDragOver (some d) d tasks = (some d, tasks) := by
        simp [handleDragOver]
      rw [hsame]
      exact ⟨List.Perm.refl _, rfl⟩
    · rw [handleDragOver_eq tasks d index hde]
      have herlen : ((pendingTasks tasks).eraseIdx d).length
          = (pendingTasks tasks).length - 1 := by
        rw [List.length_eraseIdx]
        simp [hd]
      have hile : index ≤ ((pendingTasks tasks).eraseIdx d).length := by omega
      have hallp := dragged_all_pending tasks d index hd hile
      constructor
      · rw [pendingTasks_mix _ tasks hallp]
        have hper1 := insertIdxPerm index ((pendingTasks tasks).eraseIdx d)
          ((pendingTasks tasks).getD d defaultTask) hile
        have hper2 := consErasePerm d (pendingTasks tasks) defaultTask hd
        exact (hper1.trans hper2).map Task.id
      · exact completedTasks_mix _ tasks hallp

/-- C5 witness: swapping the second pending task of the sample list up
permutes the pending ids and leaves the completed partition unchanged. -/
theorem c5_reorder_witness :
    (1 ≤ 1 ∧ 1 < (pendingTasks exTasks).length)
      ∧ ((pendingTasks (moveTask true 1 exTasks)).map Task.id).Perm
          ((pendingTasks exTasks).map Task.id)
      ∧ completedTasks (moveTask true 1 exTasks) = completedTasks exTasks :=
  ⟨⟨by decide, by decide⟩,
    ((c5_reorder_preserves exTasks 1).1 (by decide) (by decide)).1,
    ((c5_reorder_preserves exTasks 1).1 (by decide) (by decide)).2⟩

/-- C9: for the target positions reachable by both interaction models —
the adjacent positions, the only ones a single discrete swap can reach —
the discrete up/down swap and the continuous drag reinsertion produce the
identical resulting task list: moving up at `index` equals dragging item
`index` over `index - 1`, and moving down at `index` equals dragging item
`index` over `index + 1`. -/
theorem c9_swap_drag_equiv (tasks : List Task) (index : Nat) :
    (1 ≤ index → index < (pendingTasks tasks).length →
      moveTask true index tasks = (handleDragOver (some index) (index - 1) tasks).2)
      ∧ (index + 1 < (pendingTasks tasks).length →
        moveTask false index tasks
          = (handleDragOver (some index) (index + 1) tasks).2) := by
  constructor
  · intro h1 h2
    rw [moveTask_up_eq tasks index h1 h2,
      handleDragOver_eq tasks index (index - 1) (by omega)]
    have hk : (index - 1) + 1 = index := by omega
    have heq := eraseInsertUp (index - 1) (pendingTasks tasks) defaultTask (by omega)
    rw [hk] at heq
    rw [heq]
  · intro h2
    rw [moveTask_down_eq tasks index h2,
      handleDragOver_eq tasks index (index + 1) (by omega)]
    rw [eraseInsertDown index (pendingTasks tasks) defaultTask h2]

/-- C9 witness: on the sample list, swapping the second pending task up
and dragging it over index 0 give the same task list. -/
theorem c9_swap_drag_witness :
    (1 ≤ 1 ∧ 1 < (pendingTasks exTasks).length)
      ∧ moveTask true 1 exTasks = (handleDragOver (some 1) 0 exTasks).2 :=
  ⟨⟨by decide, by decide⟩, (c9_swap_drag_equiv exTasks 1).1 (by decide) (by decide)⟩

end KiddoTime
